import Mathlib

/-!
Verification development for the timestamp-evidence service.

The embedding models, in order:
- the OpenTimestamps proof tree and its merge operation (used by
  `ots_service._create_ots_with_calendar` and `verify_ots`),
- calendar aggregation (`_create_ots_with_calendar`, `create_ots`),
- blockchain-proof collection with its per-pass lookup cache
  (`_collect_blockchain_proofs`),
- proof verification (`verify_ots`),
- the TSA token decode fallback chain (`_decode_tsa_response`) and the
  hash check (`_check_tsa_hash`, `_extract_message_imprint`),
- evidence submission status transitions and deletion
  (`evidence_service.process_submission`, `delete_evidence`).

Bytes are modelled as lists of naturals (each intended < 256); network
and external-library collaborators are passed in as explicit oracle
functions, so every definition is executable.
-/

namespace OTS

/-- Attestation of a proof-tree node, after
`opentimestamps.core.notary`: a calendar's pending promise, a bitcoin or
litecoin block-header anchor, or an unrecognized attestation kept
opaquely. -/
inductive Att : Type where
  | pending (uri : String)
  | bitcoin (height : Nat)
  | litecoin (height : Nat)
  | unknown (tag : Nat)
deriving DecidableEq, Repr

/-- Modelled from the spec: the ProofTree of §3/§4.2 (the source only
calls `opentimestamps.core.timestamp.Timestamp`, whose implementation is
not under `src/`).  A node carries the message (digest) it commits to, a
set of attestations (list, compared up to membership), and named child
operations producing derived messages.  Operations are identified by a
numeric tag standing for the operation plus its argument. -/
inductive Timestamp : Type where
  | node (msg : List Nat) (atts : List Att) (ops : List (Nat × Timestamp))
deriving Repr

namespace Timestamp

/-- Message committed to by the root node. -/
def msg : Timestamp → List Nat
  | .node m _ _ => m

/-- Attestations attached at the root node. -/
def atts : Timestamp → List Att
  | .node _ a _ => a

/-- Child operations of the root node. -/
def ops : Timestamp → List (Nat × Timestamp)
  | .node _ _ o => o

/-- Modelled from the spec: set-union of attestation lists (the library
stores attestations in a `set`; the list model inserts each right-hand
element not already present, preserving first-occurrence order). -/
def mergeAtts (a b : List Att) : List Att :=
  b.foldl (fun acc e => if e ∈ acc then acc else acc ++ [e]) a

mutual

/-- Modelled from the spec: ProofTree merge (§4.2) - union of operation
paths and attestations, merging recursively into a structurally
identical path instead of duplicating it.  Mirrors
`Timestamp.merge` of the library: attestation set union, then each child
operation of the right tree is merged into the matching child of the
left tree, or appended when no child carries that operation. -/
def merge : Timestamp → Timestamp → Timestamp
  | .node m a o, .node _ a2 o2 => .node m (mergeAtts a a2) (mergeInto o o2)
termination_by _ u => (sizeOf u, 0, 0)

/-- Fold the right tree's child operations into an accumulating child
list, one `insertOp` per operation. -/
def mergeInto : List (Nat × Timestamp) → List (Nat × Timestamp) → List (Nat × Timestamp)
  | acc, [] => acc
  | acc, (op, c) :: rest => mergeInto (insertOp acc op c) rest
termination_by _ l => (sizeOf l, 2, 0)

/-- Insert one child operation: merge into the first entry carrying the
same operation, or append when none does. -/
def insertOp : List (Nat × Timestamp) → Nat → Timestamp → List (Nat × Timestamp)
  | [], op, c => [(op, c)]
  | (k, t) :: rest, op, c =>
      if k = op then (k, merge t c) :: rest else (k, t) :: insertOp rest op c
termination_by l _ c => (sizeOf c, 1, sizeOf l)

end

/-- Well-formedness a library-built tree satisfies: child operations of
every node are keyed by distinct operations (the library stores them in
a dict keyed by the operation). -/
inductive WF : Timestamp → Prop where
  | node (m : List Nat) (a : List Att) (o : List (Nat × Timestamp))
      (hkeys : (o.map Prod.fst).Nodup)
      (hch : ∀ op c, (op, c) ∈ o → WF c) : WF (.node m a o)

mutual

/-- All `(message, attestation)` pairs of a tree, root first, mirroring
`Timestamp.all_attestations` of the library. -/
def allAttestations : Timestamp → List (List Nat × Att)
  | .node m a o => a.map (fun att => (m, att)) ++ allAttestationsList o
termination_by t => sizeOf t

/-- Attestations of a list of child operations, in order. -/
def allAttestationsList : List (Nat × Timestamp) → List (List Nat × Att)
  | [] => []
  | (_, c) :: rest => allAttestations c ++ allAttestationsList rest
termination_by l => sizeOf l

end

/-- Attestation count of a tree, as reported in
`_collect_attestation_info` under the `attestations` key. -/
def attCount (t : Timestamp) : Nat := (allAttestations t).length

end Timestamp

/-- The `info` dictionary of an `OTSResult` produced by
`_create_ots_with_calendar`: key present iff the field is `some`. -/
structure OTSInfo where
  calendar_success : Option Nat
  calendar_errors : Option (List String)
  errors : Option (List String)
deriving Repr, DecidableEq

/-- `OTSResult` of `ots_service` (creation side); `tree` stands for the
serialized `ots_bytes` (serialization itself is the library's and is
injective on trees, so the tree is kept). -/
structure OTSResult where
  success : Bool
  error : Option String
  info : OTSInfo
  tree : Option Timestamp
deriving Repr

/-- Loop state of the calendar-submission loop of
`_create_ots_with_calendar`: accumulating tree, per-endpoint error
strings, success count, and the trace of endpoints actually submitted to
(network calls made). -/
structure CalendarLoopState where
  tree : Timestamp
  errors : List String
  successCount : Nat
  attempted : List String
deriving Repr

/-- The `for url in calendars` loop of `_create_ots_with_calendar`:
submit the digest to each endpoint in order; a success merges the
returned proof into the accumulating tree, a failure appends
`"url: message"` to the error list.  `submit` is the
`RemoteCalendar(url).submit(digest)` network oracle. -/
def calendarLoop (submit : String → Except String Timestamp) :
    CalendarLoopState → List String → CalendarLoopState
  | st, [] => st
  | st, url :: rest =>
    match submit url with
    | .ok calTs =>
        calendarLoop submit
          { tree := st.tree.merge calTs, errors := st.errors,
            successCount := st.successCount + 1,
            attempted := st.attempted ++ [url] } rest
    | .error e =>
        calendarLoop submit
          { tree := st.tree, errors := st.errors ++ [url ++ ": " ++ e],
            successCount := st.successCount,
            attempted := st.attempted ++ [url] } rest

/-- Mirrors `_create_ots_with_calendar` (the successful-import branch):
empty endpoint list fails immediately with the configuration error;
otherwise every endpoint is attempted, success is declared iff at least
one succeeded.  Returns the result paired with the list of endpoints
actually submitted to. -/
def create_ots_with_calendar (submit : String → Except String Timestamp)
    (digest : List Nat) (calendars : List String) : OTSResult × List String :=
  if calendars = [] then
    ({ success := false, error := some "no calendars configured",
       info := { calendar_success := none, calendar_errors := none, errors := none },
       tree := none }, [])
  else
    let st := calendarLoop submit
      { tree := .node digest [] [], errors := [], successCount := 0, attempted := [] }
      calendars
    if st.successCount = 0 then
      ({ success := false, error := some "all calendars failed",
         info := { calendar_success := none, calendar_errors := none,
                   errors := some st.errors },
         tree := none }, st.attempted)
    else
      ({ success := true, error := none,
         info := { calendar_success := some st.successCount,
                   calendar_errors := some st.errors, errors := none },
         tree := some st.tree }, st.attempted)

/-- Mirrors `create_ots`: when `_load_ots_client` found no client
(`client = none`, the case with the published opentimestamps package,
which exposes neither `opentimestamps.client.stamp` nor top-level
`stamp`/`verify`), delegate to the calendar path with `calendars or []`;
otherwise stamp through the client library (its own network activity is
internal to the oracle and touches no configured calendar endpoint). -/
def create_ots (client : Option (Timestamp → Except String Timestamp))
    (submit : String → Except String Timestamp)
    (digest : List Nat) (calendars : Option (List String)) : OTSResult × List String :=
  match client with
  | none => create_ots_with_calendar submit digest (calendars.getD [])
  | some stampFn =>
    match stampFn (.node digest [] []) with
    | .ok ts =>
        ({ success := true, error := none,
           info := { calendar_success := none, calendar_errors := none, errors := none },
           tree := some ts }, [])
    | .error e =>
        ({ success := false, error := some e,
           info := { calendar_success := none, calendar_errors := none, errors := none },
           tree := none }, [])

/-- Whether a calendar submission succeeds (for stating properties of
the loop over the `submit` oracle). -/
def submitOk (submit : String → Except String Timestamp) (url : String) : Bool :=
  match submit url with
  | .ok _ => true
  | .error _ => false

/-- The error message of a failed calendar submission (arbitrary on a
successful one). -/
def submitErrMsg (submit : String → Except String Timestamp) (url : String) : String :=
  match submit url with
  | .ok _ => ""
  | .error e => e

/-- One entry of `info["blockchain_proofs"]` built by
`_collect_blockchain_proofs`. -/
structure BlockProof where
  chain : String
  height : Nat
  block_hash : Option String
  explorer_url : Option String
  block_hash_error : Option String
deriving Repr, DecidableEq

/-- Chain and height of a blockchain-anchor attestation, `none` for
pending or unknown attestations (the `continue` cases of the loop). -/
def attChainHeight : Att → Option (String × Nat)
  | .bitcoin h => some ("bitcoin", h)
  | .litecoin h => some ("litecoin", h)
  | .pending _ => none
  | .unknown _ => none

/-- Association-list read, mirroring `key in cache` / `cache[key]`. -/
def lookupCache (cache : List ((String × Nat) × (Option String × Option String)))
    (key : String × Nat) : Option (Option String × Option String) :=
  (cache.find? (fun p => p.1 = key)).map (fun p => p.2)

/-- Loop state of `_collect_blockchain_proofs`: the `seen` set, the
`(chain, height) → (block_hash, error)` cache, the proofs built so far,
and the trace of `_lookup_block_hash` calls actually made. -/
structure CollectState where
  seen : List (String × Nat)
  cache : List ((String × Nat) × (Option String × Option String))
  proofs : List BlockProof
  calls : List (String × Nat)
deriving Repr

/-- The attestation loop of `_collect_blockchain_proofs`: skip
non-anchor attestations and keys already seen; otherwise record the key
as seen, consult the cache, performing one `_lookup_block_hash` call
(`lookup` oracle) only on a cache miss, and append the proof entry.
`buildUrl` is `_build_explorer_url` (settings-driven). -/
def collectLoop (lookup : String → Nat → Option String × Option String)
    (buildUrl : String → Nat → Option String → Option String) :
    CollectState → List (List Nat × Att) → CollectState
  | st, [] => st
  | st, (_, att) :: rest =>
    match attChainHeight att with
    | none => collectLoop lookup buildUrl st rest
    | some key =>
      if key ∈ st.seen then collectLoop lookup buildUrl st rest
      else
        match lookupCache st.cache key with
        | some v =>
            collectLoop lookup buildUrl
              { seen := st.seen ++ [key], cache := st.cache,
                proofs := st.proofs ++
                  [{ chain := key.1, height := key.2, block_hash := v.1,
                     explorer_url := buildUrl key.1 key.2 v.1,
                     block_hash_error := v.2 }],
                calls := st.calls } rest
        | none =>
            let v := lookup key.1 key.2
            collectLoop lookup buildUrl
              { seen := st.seen ++ [key], cache := st.cache ++ [(key, v)],
                proofs := st.proofs ++
                  [{ chain := key.1, height := key.2, block_hash := v.1,
                     explorer_url := buildUrl key.1 key.2 v.1,
                     block_hash_error := v.2 }],
                calls := st.calls ++ [key] } rest

/-- Mirrors `_collect_blockchain_proofs`: walk all attestations of the
tree, resolving each distinct `(chain, height)` anchor once.  Returns
the proof list paired with the trace of external block-hash lookups
performed. -/
def collect_blockchain_proofs (lookup : String → Nat → Option String × Option String)
    (buildUrl : String → Nat → Option String → Option String)
    (t : Timestamp) : List BlockProof × List (String × Nat) :=
  let final := collectLoop lookup buildUrl
    { seen := [], cache := [], proofs := [], calls := [] }
    (Timestamp.allAttestations t)
  (final.proofs, final.calls)

/-- The `(chain, height)` keys of the blockchain anchors among a list
of attestations, in order. -/
def anchorKeys (atts : List (List Nat × Att)) : List (String × Nat) :=
  atts.filterMap (fun p => attChainHeight p.2)

/-- Number of keys not yet seen, counting each distinct new key once -
the number of cache misses a left-to-right pass incurs. -/
def countNew (seen : List (String × Nat)) : List (String × Nat) → Nat
  | [] => 0
  | k :: rest =>
    if k ∈ seen then countNew seen rest else countNew (seen ++ [k]) rest + 1

/-- `DetachedTimestampFile`: hash operation identifier plus the proof
tree. -/
structure DetachedFile where
  fileHashOp : Nat
  timestamp : Timestamp
deriving Repr

/-- The `info` dictionary assembled by `verify_ots`; a key is present
iff the field is `some`. -/
structure VerifyInfo where
  attestations : Option Nat
  attestation_types : Option (List String)
  has_blockchain_proof : Option Bool
  has_pending_attestations : Option Bool
  hash_match : Option Bool
  blockchain_proofs : Option (List BlockProof)
  upgrade_errors : Option (List String)
  result : Option String
deriving Repr

/-- The empty `info` dictionary (`info={}`), as returned on a decode
failure. -/
def emptyVerifyInfo : VerifyInfo :=
  { attestations := none, attestation_types := none,
    has_blockchain_proof := none, has_pending_attestations := none,
    hash_match := none, blockchain_proofs := none,
    upgrade_errors := none, result := none }

/-- Class name of an attestation, as collected in `attestation_types`. -/
def attTypeName : Att → String
  | .pending _ => "PendingAttestation"
  | .bitcoin _ => "BitcoinBlockHeaderAttestation"
  | .litecoin _ => "LitecoinBlockHeaderAttestation"
  | .unknown _ => "UnknownAttestation"

/-- Whether an attestation is pending. -/
def attIsPending : Att → Bool
  | .pending _ => true
  | _ => false

/-- Mirrors `_collect_attestation_info`: count, class names and
classification flags over all attestations of the tree. -/
def collect_attestation_info (t : Timestamp) : VerifyInfo :=
  let atts := Timestamp.allAttestations t
  { attestations := some atts.length,
    attestation_types := some (atts.map (fun p => attTypeName p.2)),
    has_blockchain_proof := some (atts.any (fun p => (attChainHeight p.2).isSome)),
    has_pending_attestations := some (atts.any (fun p => attIsPending p.2)),
    hash_match := none, blockchain_proofs := none,
    upgrade_errors := none, result := none }

/-- Result of `verify_ots` (`updated` stands for `updated_ots_bytes`,
kept as the re-serialized tree when an upgrade happened). -/
structure OTSVerifyResult where
  success : Bool
  error : Option String
  info : VerifyInfo
  updated : Option Timestamp
deriving Repr

/-- Mirrors `verify_ots`.  `client = none` is the fallback branch (the
realizable one, see `create_ots`); there `deser` stands for
`DetachedTimestampFile.deserialize` (raising modelled as `.error`), and
`upgradePhase` for the pending-attestation upgrade loop - a
network-driven tree transformation returning the upgraded tree, whether
any upgrade succeeded, and the upgrade error strings.  With
`client = some (deserTs, verifyFn)`, `deserTs` is
`Timestamp.deserialize` and `verifyFn` the client `verify` call.  A
raised exception anywhere is the outer `except` handler: success false,
`error = str(exc)`, empty info. -/
def verify_ots
    (client : Option ((List Nat → Except String Timestamp) ×
      (Timestamp → Except String (Option String))))
    (deser : List Nat → Except String DetachedFile)
    (upgradePhase : Timestamp → Timestamp × Bool × List String)
    (lookup : String → Nat → Option String × Option String)
    (buildUrl : String → Nat → Option String → Option String)
    (ots_bytes : List Nat) (hash_hex : Option (List Nat)) : OTSVerifyResult :=
  match client with
  | none =>
    match deser ots_bytes with
    | .error e =>
        { success := false, error := some e, info := emptyVerifyInfo, updated := none }
    | .ok detached =>
      let info0 := collect_attestation_info detached.timestamp
      let mismatch0 : Bool := match hash_hex with
        | some expected => decide (detached.timestamp.msg ≠ expected)
        | none => false
      if mismatch0 then
        { success := false, error := some "hash mismatch",
          info := { info0 with hash_match := some false }, updated := none }
      else
        let up := upgradePhase detached.timestamp
        let ts2 := up.1
        let upgraded := up.2.1
        let upErrs := up.2.2
        let info1 := collect_attestation_info ts2
        let proofs := (collect_blockchain_proofs lookup buildUrl ts2).1
        let info2 := { info1 with
          blockchain_proofs := if proofs = [] then none else some proofs,
          upgrade_errors := if upErrs = [] then none else some upErrs }
        let updated := if upgraded then some ts2 else none
        match hash_hex with
        | some expected =>
          if ts2.msg ≠ expected then
            { success := false, error := some "hash mismatch",
              info := info2, updated := none }
          else
            { success := true, error := none,
              info := { info2 with hash_match := some true }, updated := updated }
        | none =>
            { success := true, error := none, info := info2, updated := updated }
  | some cl =>
    match cl.1 ots_bytes with
    | .error e =>
        { success := false, error := some e, info := emptyVerifyInfo, updated := none }
    | .ok ts =>
      match cl.2 ts with
      | .error e =>
          { success := false, error := some e, info := emptyVerifyInfo, updated := none }
      | .ok res =>
        let info1 := collect_attestation_info ts
        let proofs := (collect_blockchain_proofs lookup buildUrl ts).1
        let info2 := { info1 with
          blockchain_proofs := if proofs = [] then none else some proofs }
        match hash_hex with
        | some expected =>
          if ts.msg ≠ expected then
            { success := false, error := some "hash mismatch",
              info := { info2 with hash_match := some false }, updated := none }
          else
            { success := true, error := none,
              info := { info2 with hash_match := some true, result := res },
              updated := none }
        | none =>
            { success := true, error := none,
              info := { info2 with result := res }, updated := none }

end OTS

namespace TSA

/-- A byte decodes as ASCII iff it is below 128 (`bytes.decode("ascii")`). -/
def isAsciiByte (b : Nat) : Bool := b < 128

/-- ASCII whitespace bytes stripped by `bytes.strip()`. -/
def isSpaceByte (b : Nat) : Bool :=
  b = 32 || b = 9 || b = 10 || b = 13 || b = 11 || b = 12

/-- `bytes.strip()`: drop leading and trailing ASCII whitespace. -/
def stripBytes (s : List Nat) : List Nat :=
  ((s.dropWhile isSpaceByte).reverse.dropWhile isSpaceByte).reverse

/-- Base64 data characters: A-Z, a-z, 0-9, +, /. -/
def isB64Data (b : Nat) : Bool :=
  (65 ≤ b && b ≤ 90) || (97 ≤ b && b ≤ 122) || (48 ≤ b && b ≤ 57) || b = 43 || b = 47

/-- The `allowed` byte set of `_decode_tsa_response`: base64 data
characters plus the padding byte `=`. -/
def isAllowedB64 (b : Nat) : Bool := isB64Data b || b = 61

/-- Sextet value of a base64 data character. -/
def b64Val (b : Nat) : Nat :=
  if 65 ≤ b && b ≤ 90 then b - 65
  else if 97 ≤ b && b ≤ 122 then b - 97 + 26
  else if 48 ≤ b && b ≤ 57 then b - 48 + 52
  else if b = 43 then 62
  else 63

/-- Reassemble bytes from sextet values, final group of 2 or 3 sextets
producing 1 or 2 bytes. -/
def b64DecodeChunks : List Nat → List Nat
  | a :: b :: c :: d :: rest =>
      (a * 4 + b / 16) :: ((b % 16) * 16 + c / 4) :: ((c % 4) * 64 + d) ::
        b64DecodeChunks rest
  | [a, b] => [a * 4 + b / 16]
  | [a, b, c] => [a * 4 + b / 16, (b % 16) * 16 + c / 4]
  | _ => []

/-- `base64.b64decode` on the canonical form: data characters followed
only by trailing padding, total length a multiple of 4, at most two
padding bytes.  Among inputs reachable in `_decode_tsa_response` (every
character already validated against the alphabet, length padded to a
multiple of 4) CPython accepts exactly these; its lenient treatment of
non-canonical interior padding is outside the model and mapped to
`none`. -/
def b64decode (s : List Nat) : Option (List Nat) :=
  let data := s.takeWhile (fun b => b ≠ 61)
  let pad := s.drop data.length
  if pad.all (fun b => b = 61) && data.all isB64Data && s.length % 4 = 0 &&
      pad.length ≤ 2 then
    some (b64DecodeChunks (data.map b64Val))
  else none

/-- `bytes.splitlines()` over `\n`, `\r` and `\r\n`. -/
def splitLinesAux : List Nat → List Nat → List (List Nat)
  | 13 :: 10 :: rest, acc => acc.reverse :: splitLinesAux rest []
  | 13 :: rest, acc => acc.reverse :: splitLinesAux rest []
  | 10 :: rest, acc => acc.reverse :: splitLinesAux rest []
  | b :: rest, acc => splitLinesAux rest (b :: acc)
  | [], acc => if acc.isEmpty then [] else [acc.reverse]

/-- `bytes.splitlines()`. -/
def splitLines (s : List Nat) : List (List Nat) := splitLinesAux s []

/-- The bytes of `"-----"`. -/
def pemMarker : List Nat := [45, 45, 45, 45, 45]

/-- The bytes of `"-----BEGIN"`. -/
def pemBegin : List Nat := [45, 45, 45, 45, 45, 66, 69, 71, 73, 78]

/-- Outcome of `_decode_tsa_response`.  `malformedBinary` is the raised
`ValueError "tsa response is binary but not RFC3161 TimeStampResp"`;
`notBase64` the raised
`ValueError "tsa response is not base64 or ASN.1 data"`;
`base64Failed` a `binascii` error out of `base64.b64decode`;
`decoderFailed` a failure of the retried strict decode. -/
inductive DecodeOutcome (α : Type) where
  | ok (v : α)
  | malformedBinary
  | notBase64
  | base64Failed
  | decoderFailed
deriving Repr, DecidableEq

/-- Mirrors `_decode_tsa_response`: strict decode, then the
binary/ASCII branch point, then the PEM path, then bare base64 with
alphabet validation and padding correction.  The strict decoder is the
external `rfc3161ng.decode_timestamp_response`, passed as an oracle that
returns `none` where the library raises. -/
def decode_tsa_response {α : Type} (decoder : List Nat → Option α)
    (tsr_bytes : List Nat) : DecodeOutcome α :=
  match decoder tsr_bytes with
  | some v => .ok v
  | none =>
    if ¬ tsr_bytes.all isAsciiByte then .malformedBinary
    else
      let text := stripBytes tsr_bytes
      if pemBegin.isPrefixOf text then
        let parts := splitLines text
        let b64 := (parts.filter (fun line => ¬ pemMarker.isPrefixOf line)).flatten
        match b64decode b64 with
        | none => .base64Failed
        | some raw =>
          match decoder raw with
          | some v => .ok v
          | none => .decoderFailed
      else
        let b64_text := text.filter (fun b => b ≠ 10 && b ≠ 13)
        if ¬ b64_text.all isAllowedB64 then .notBase64
        else
          let missing := (4 - b64_text.length % 4) % 4
          let padded := b64_text ++ List.replicate missing 61
          match b64decode padded with
          | none => .base64Failed
          | some raw =>
            match decoder raw with
            | some v => .ok v
            | none => .decoderFailed

/-- The bare-base64 candidate text of `_decode_tsa_response`: stripped
input with line breaks removed. -/
def bareB64Text (tsr : List Nat) : List Nat :=
  (stripBytes tsr).filter (fun b => b ≠ 10 && b ≠ 13)

/-- `MessageImprint`: declared hash-algorithm OID and the embedded
digest bytes. -/
structure MessageImprint where
  hashOid : String
  hashedMessage : List Nat
deriving Repr, DecidableEq

/-- `TSTInfo` as far as `_extract_message_imprint` reads it:
`getComponentByName("messageImprint")` may be absent. -/
structure TSTInfo where
  messageImprint : Option MessageImprint
deriving Repr

/-- A decoded timestamp token; `tst_info = none` models the case where
neither the direct accessor nor the nested BER walk yields a
`TSTInfo`. -/
structure TimeStampToken where
  tst_info : Option TSTInfo
deriving Repr

/-- The `debug_info` dictionary of `_extract_message_imprint`. -/
structure ImprintDebug where
  hash_oid : Option String
  hash_alg : Option String
  imprint_hex : Option (List Nat)
deriving Repr, DecidableEq

/-- The `rfc3161ng.oid_to_hash` table of the external library. -/
def oid_to_hash (oid : String) : Option String :=
  if oid = "1.3.14.3.2.26" then some "sha1"
  else if oid = "2.16.840.1.101.3.4.2.1" then some "sha256"
  else if oid = "2.16.840.1.101.3.4.2.2" then some "sha384"
  else if oid = "2.16.840.1.101.3.4.2.3" then some "sha512"
  else none

/-- Modelled from the spec: digest output lengths of the standard hash
algorithms (§3: a Digest is "exactly the output length of the declared
hash algorithm"; the source nowhere tabulates these lengths). -/
def digestLength (alg : String) : Option Nat :=
  if alg = "sha1" then some 20
  else if alg = "sha256" then some 32
  else if alg = "sha384" then some 48
  else if alg = "sha512" then some 64
  else none

/-- Mirrors `_extract_message_imprint`: read the imprint out of the
token's `TSTInfo` and report the digest bytes with debug metadata.  No
branch inspects the length of `hashedMessage`. -/
def extract_message_imprint (tst : TimeStampToken) : Option (List Nat) × ImprintDebug :=
  match tst.tst_info with
  | none => (none, { hash_oid := none, hash_alg := none, imprint_hex := none })
  | some info =>
    match info.messageImprint with
    | none => (none, { hash_oid := none, hash_alg := none, imprint_hex := none })
    | some mi =>
        (some mi.hashedMessage,
         { hash_oid := some mi.hashOid, hash_alg := oid_to_hash mi.hashOid,
           imprint_hex := some mi.hashedMessage })

/-- Value of one hexadecimal character. -/
def hexDigit (c : Char) : Option Nat :=
  if '0' ≤ c ∧ c ≤ '9' then some (c.toNat - 48)
  else if 'a' ≤ c ∧ c ≤ 'f' then some (c.toNat - 87)
  else if 'A' ≤ c ∧ c ≤ 'F' then some (c.toNat - 55)
  else none

/-- `bytes.fromhex` on a plain even-length hex string (the service
passes plain hex digests; CPython's tolerated interior whitespace is not
exercised here). -/
def fromhex : List Char → Option (List Nat)
  | [] => some []
  | c1 :: c2 :: rest =>
    match hexDigit c1, hexDigit c2, fromhex rest with
    | some a, some b, some bs => some ((a * 16 + b) :: bs)
    | _, _, _ => none
  | [_] => none

/-- `bytes.fromhex` over a string. -/
def parseHashHex (s : String) : Option (List Nat) := fromhex s.toList

/-- Outcome of `_check_tsa_hash`, one constructor per returned error
string: `invalidHashHex` for `"invalid hash hex"`, `missingToken` for
`"invalid tsa response: missing timestamp token"`, `missingImprint` for
`"invalid tsa response: missing message imprint"`, and
`hashMismatch dbg` for
`"hash mismatch: digest not equal (debug_info)"`. -/
inductive TsaHashError where
  | invalidHashHex
  | missingToken
  | missingImprint
  | hashMismatch (dbg : ImprintDebug)
deriving Repr, DecidableEq

/-- Mirrors `_check_tsa_hash`; token extraction (`_extract_tst_token`:
library decode plus the pyasn1 fallback) is the `extractTst` oracle,
`none` where every strategy fails.  The embedded imprint is compared to
the expected digest by full byte equality. -/
def check_tsa_hash (extractTst : List Nat → Option TimeStampToken)
    (tsr_bytes : List Nat) (hash_hex : String) : Option TsaHashError :=
  match parseHashHex hash_hex with
  | none => some .invalidHashHex
  | some digest =>
    match extractTst tsr_bytes with
    | none => some .missingToken
    | some tst =>
      match extract_message_imprint tst with
      | (none, _) => some .missingImprint
      | (some imprint, dbg) =>
          if imprint ≠ digest then some (.hashMismatch dbg) else none

end TSA

namespace Evidence

/-- `_status_from_result`. -/
def status_from_result (success : Bool) : String :=
  if success then "success" else "failed"

/-- An `evidences` row as read by `process_submission`. -/
structure EvidenceRecord where
  ots_status : String
  tsa_status : String
  ots_path : Option String
  tsa_path : Option String
deriving Repr, DecidableEq

/-- Status-relevant slice of `process_submission`: the per-protocol
status pair `(ots_status, tsa_status)` it computes.  `existing` is the
stored record (`none`: a fresh hash, inserted as pending/pending and
refetched with empty paths); `readFile` models truthiness of
`storage_service.read_file` on a stored path; `otsSuccess`/`tsaSuccess`
are the success flags of `create_ots`/`create_tsa`, consulted only where
the code invokes them. -/
def process_submission_statuses
    (save_record : Bool) (existing : Option EvidenceRecord)
    (readFile : Option String → Bool)
    (ots_enabled tsa_enabled : Bool)
    (otsSuccess tsaSuccess : Bool) : String × String :=
  if save_record then
    let ots0 := match existing with | some r => r.ots_status | none => "pending"
    let tsa0 := match existing with | some r => r.tsa_status | none => "pending"
    let ots_path := match existing with | some r => r.ots_path | none => none
    let tsa_path := match existing with | some r => r.tsa_path | none => none
    let ots1 := if ots0 = "success" && ¬ readFile ots_path then "failed" else ots0
    let tsa1 := if tsa0 = "success" && ¬ readFile tsa_path then "failed" else tsa0
    let ots2 :=
      if ots1 ≠ "success" then
        if ots_enabled then status_from_result otsSuccess else "disabled"
      else ots1
    let tsa2 :=
      if tsa1 ≠ "success" then
        if tsa_enabled then status_from_result tsaSuccess else "disabled"
      else tsa1
    (ots2, tsa2)
  else
    ((if ots_enabled then status_from_result otsSuccess else "disabled"),
     (if tsa_enabled then status_from_result tsaSuccess else "disabled"))

/-- A stored prior OTS success that `process_submission` keeps without
re-running the protocol: records are saved, the stored status is
`"success"`, and the stored proof file is still readable. -/
def priorOtsKept (save_record : Bool) (existing : Option EvidenceRecord)
    (readFile : Option String → Bool) : Bool :=
  save_record &&
    (match existing with
     | some r => (r.ots_status == "success") && readFile r.ots_path
     | none => false)

/-- A stored prior TSA success that `process_submission` keeps without
re-running the protocol. -/
def priorTsaKept (save_record : Bool) (existing : Option EvidenceRecord)
    (readFile : Option String → Bool) : Bool :=
  save_record &&
    (match existing with
     | some r => (r.tsa_status == "success") && readFile r.tsa_path
     | none => false)

/-- Record store and proof-file store visible to `delete_evidence`:
records keyed by hash, directories (`files_dir/hash`) with their file
names. -/
structure EvidenceStore where
  records : List (String × EvidenceRecord)
  dirs : List (String × List String)
deriving Repr, DecidableEq

/-- `evidence_repo.fetch_by_hash`. -/
def fetch_by_hash (records : List (String × EvidenceRecord)) (h : String) :
    Option EvidenceRecord :=
  (records.find? (fun p => p.1 = h)).map (fun p => p.2)

/-- `evidence_repo.delete_by_hash`. -/
def delete_by_hash (records : List (String × EvidenceRecord)) (h : String) :
    List (String × EvidenceRecord) :=
  records.filter (fun p => p.1 ≠ h)

/-- `storage_service.evidence_dir`. -/
def evidence_dir (files_dir h : String) : String := files_dir ++ "/" ++ h

/-- `storage_service.delete_evidence_files`: remove the files of the
hash's directory (and the directory). -/
def delete_evidence_files (dirs : List (String × List String))
    (files_dir h : String) : List (String × List String) :=
  dirs.filter (fun p => p.1 ≠ evidence_dir files_dir h)

/-- Mirrors `evidence_service.delete_evidence`: missing record returns
`False` at once; otherwise files are deleted unless `keep_files`, and
the record is removed. -/
def delete_evidence (st : EvidenceStore) (files_dir h : String)
    (keep_files : Bool) : Bool × EvidenceStore :=
  match fetch_by_hash st.records h with
  | none => (false, st)
  | some _ =>
    let st1 :=
      if keep_files then st
      else { st with dirs := delete_evidence_files st.dirs files_dir h }
    (true, { st1 with records := delete_by_hash st1.records h })

end Evidence

namespace TSA

theorem takeWhile_append_all {p : Nat → Bool} :
    ∀ (l r : List Nat), l.all p → (l ++ r).takeWhile p = l ++ r.takeWhile p
  | [], r, _ => by simp
  | x :: l, r, h => by
    simp only [List.all_cons, Bool.and_eq_true] at h
    simp [List.takeWhile_cons, h.1, takeWhile_append_all l r h.2]

theorem isB64Data_ne_pad {b : Nat} (h : isB64Data b = true) : b ≠ 61 := by
  simp only [isB64Data, Bool.or_eq_true, Bool.and_eq_true, decide_eq_true_eq] at h
  omega

theorem b64decode_data_padded (data : List Nat) (hdata : data.all isB64Data = true)
    (hmod : data.length % 4 ≠ 1) :
    b64decode (data ++ List.replicate ((4 - data.length % 4) % 4) 61) =
      some (b64DecodeChunks (data.map b64Val)) := by
  have hne : data.all (fun b => decide (b ≠ 61)) = true := by
    rw [List.all_eq_true] at hdata ⊢
    intro x hx
    exact decide_eq_true (isB64Data_ne_pad (hdata x hx))
  have htrep : (List.replicate ((4 - data.length % 4) % 4) 61).takeWhile
      (fun b => decide (b ≠ 61)) = [] := by
    cases h : (4 - data.length % 4) % 4 with
    | zero => simp
    | succ n => simp [List.replicate, List.takeWhile_cons]
  have htake : ((data ++ List.replicate ((4 - data.length % 4) % 4) 61).takeWhile
      (fun b => decide (b ≠ 61))) = data := by
    rw [takeWhile_append_all _ _ hne, htrep, List.append_nil]
  have hdrop : (data ++ List.replicate ((4 - data.length % 4) % 4) 61).drop data.length =
      List.replicate ((4 - data.length % 4) % 4) 61 := List.drop_left _ _
  have hpadall : (List.replicate ((4 - data.length % 4) % 4) 61).all
      (fun b => decide (b = 61)) = true := by
    rw [List.all_eq_true]
    intro x hx
    exact decide_eq_true (List.mem_replicate.mp hx).2
  have hlen : (data ++ List.replicate ((4 - data.length % 4) % 4) 61).length % 4 = 0 := by
    simp only [List.length_append, List.length_replicate]
    omega
  have hpadlen : (List.replicate ((4 - data.length % 4) % 4) 61).length ≤ 2 := by
    simp only [List.length_replicate]
    omega
  simp only [b64decode, htake, hdrop, hpadall, hdata, hlen, hpadlen]
  simp

/-- C2: a signed-token byte string failing the strict binary decode and
containing a non-ASCII byte makes `_decode_tsa_response` fail with the
`MalformedBinaryToken` error
(`ValueError "tsa response is binary but not RFC3161 TimeStampResp"`);
the PEM and bare-base64 fallbacks are never reached (the outcome is the
raised error, whatever those fallbacks would have produced). -/
theorem binary_non_ascii_token {α : Type} (decoder : List Nat → Option α)
    (tsr : List Nat) (hstrict : decoder tsr = none)
    (hascii : tsr.all isAsciiByte = false) :
    decode_tsa_response decoder tsr = .malformedBinary := by
  simp [decode_tsa_response, hstrict, hascii]

/-- C2 witness: 200 raw bytes of value 250 (non-ASCII) with a strict
decoder that rejects everything. -/
theorem binary_non_ascii_token_witness :
    decode_tsa_response (fun _ => (none : Option Unit)) (List.replicate 200 250) =
      .malformedBinary :=
  binary_non_ascii_token (fun _ => none) (List.replicate 200 250) rfl (by decide)

/-- C8: in the bare-base64 step of `_decode_tsa_response` (strict decode
failed, ASCII, not PEM-delimited): a character outside the allowed
base64 alphabet yields the distinct
`ValueError "tsa response is not base64 or ASN.1 data"`; a text made of
data-alphabet characters whose length is not 1 mod 4 (a base64 encoding
missing its padding) is padded with `=` to a multiple of 4,
base64-decodes successfully, and the strict decode is retried on the
decoded bytes. -/
theorem bare_base64_alphabet_vs_padding {α : Type} (decoder : List Nat → Option α)
    (tsr : List Nat) (hstrict : decoder tsr = none)
    (hascii : tsr.all isAsciiByte = true)
    (hpem : pemBegin.isPrefixOf (stripBytes tsr) = false) :
    ((bareB64Text tsr).all isAllowedB64 = false →
      decode_tsa_response decoder tsr = .notBase64) ∧
    ((bareB64Text tsr).all isB64Data = true → (bareB64Text tsr).length % 4 ≠ 1 →
      b64decode (bareB64Text tsr ++
          List.replicate ((4 - (bareB64Text tsr).length % 4) % 4) 61) =
        some (b64DecodeChunks ((bareB64Text tsr).map b64Val)) ∧
      decode_tsa_response decoder tsr =
        (match decoder (b64DecodeChunks ((bareB64Text tsr).map b64Val)) with
         | some v => DecodeOutcome.ok v
         | none => DecodeOutcome.decoderFailed)) := by
  constructor
  · intro hbad
    simp [decode_tsa_response, hstrict, hascii, hpem, bareB64Text] at hbad ⊢
    simp [hbad]
  · intro hdata hmod
    have hb64 := b64decode_data_padded (bareB64Text tsr) hdata hmod
    have hallowed : (bareB64Text tsr).all isAllowedB64 = true := by
      rw [List.all_eq_true] at hdata ⊢
      intro x hx
      simp only [isAllowedB64, Bool.or_eq_true]
      exact Or.inl (hdata x hx)
    refine ⟨hb64, ?_⟩
    simp only [bareB64Text] at hb64 hallowed
    simp at hb64 hallowed
    simp [decode_tsa_response, hstrict, hascii, hpem, hallowed, hb64, bareB64Text]
    intro x hx h10 h13 hbad
    rcases hallowed x hx with h | h | h
    · exact absurd h h10
    · exact absurd h h13
    · simp [h] at hbad

/-- C8 witness: `"aaa"` (valid alphabet, missing padding) succeeds
after `=`-padding and the retried decoder sees the decoded bytes
`[105, 166]`; `"a a"` (space outside the alphabet) fails with the
distinct alphabet error. -/
theorem bare_base64_alphabet_vs_padding_witness :
    (b64decode ([97, 97, 97] ++ List.replicate 1 61) = some [105, 166] ∧
      decode_tsa_response
        (fun bs => if bs = [105, 166] then some true else none) [97, 97, 97] =
        .ok true) ∧
    decode_tsa_response
      (fun bs => if bs = [105, 166] then some true else none) [97, 32, 97] =
      .notBase64 := by
  constructor
  · have h := (bare_base64_alphabet_vs_padding
      (fun bs => if bs = [105, 166] then some true else none) [97, 97, 97]
      (by decide) (by decide) (by decide)).2 (by decide) (by decide)
    exact ⟨by simpa using h.1, by simpa using h.2⟩
  · exact (bare_base64_alphabet_vs_padding
      (fun bs => if bs = [105, 166] then some true else none) [97, 32, 97]
      (by decide) (by decide) (by decide)).1 (by decide)

/-- C5 counterexample: a decoded token declaring sha256 (digest length
32) with a 5-byte `hashed_message` is not rejected: the imprint
extraction returns it, and the full hash check passes whenever the
supplied digest equals those 5 bytes - no branch of the code compares
the imprint length to the declared algorithm's digest length. -/
theorem token_digest_length_unchecked_cex :
    (extract_message_imprint
        ⟨some ⟨some ⟨"2.16.840.1.101.3.4.2.1", [1, 2, 3, 4, 5]⟩⟩⟩).1 =
      some [1, 2, 3, 4, 5] ∧
    check_tsa_hash
      (fun _ => some ⟨some ⟨some ⟨"2.16.840.1.101.3.4.2.1", [1, 2, 3, 4, 5]⟩⟩⟩)
      [0] "0102030405" = none ∧
    oid_to_hash "2.16.840.1.101.3.4.2.1" = some "sha256" ∧
    digestLength "sha256" = some 32 ∧
    ([1, 2, 3, 4, 5] : List Nat).length ≠ 32 := by
  decide

/-- C5 amended: the code performs no explicit length validation of
`hashed_message` against the declared algorithm; rejection happens only
through the full byte-equality comparison of `_check_tsa_hash` against
the digest the verifier supplies, so whenever the supplied digest's
length differs from the imprint's length the token is rejected with the
hash-mismatch error. -/
theorem token_digest_length_mismatch_rejected
    (extractTst : List Nat → Option TimeStampToken) (tsr : List Nat)
    (hash_hex : String) (digest : List Nat) (tkn : TimeStampToken)
    (imprint : List Nat) (dbg : ImprintDebug)
    (hdig : parseHashHex hash_hex = some digest)
    (htok : extractTst tsr = some tkn)
    (himp : extract_message_imprint tkn = (some imprint, dbg))
    (hlen : imprint.length ≠ digest.length) :
    check_tsa_hash extractTst tsr hash_hex = some (.hashMismatch dbg) := by
  have hne : imprint ≠ digest := fun h => hlen (by rw [h])
  simp [check_tsa_hash, hdig, htok, himp, hne]

/-- C5 amended witness: the 5-byte-imprint token against a supplied
32-byte (sha256-length) digest is rejected with the hash-mismatch
error. -/
theorem token_digest_length_mismatch_rejected_witness :
    check_tsa_hash
      (fun _ => some ⟨some ⟨some ⟨"2.16.840.1.101.3.4.2.1", [1, 2, 3, 4, 5]⟩⟩⟩)
      [0] "0000000000000000000000000000000000000000000000000000000000000000" =
      some (.hashMismatch
        ⟨some "2.16.840.1.101.3.4.2.1", some "sha256", some [1, 2, 3, 4, 5]⟩) :=
  token_digest_length_mismatch_rejected _ _ _ (List.replicate 32 0) _ _ _
    (by decide) rfl rfl (by decide)

end TSA

namespace Evidence

theorem pss_fst (save : Bool) (existing : Option EvidenceRecord)
    (readFile : Option String → Bool) (eo et so st : Bool) :
    (process_submission_statuses save existing readFile eo et so st).1 =
      if priorOtsKept save existing readFile then "success"
      else if eo then status_from_result so else "disabled" := by
  cases existing with
  | none =>
    cases save <;> simp [process_submission_statuses, priorOtsKept, status_from_result]
  | some r =>
    cases save with
    | false => simp [process_submission_statuses, priorOtsKept]
    | true =>
      by_cases ho : r.ots_status = "success"
      · by_cases hro : readFile r.ots_path = true
        · simp [process_submission_statuses, priorOtsKept, ho, hro]
        · simp only [Bool.not_eq_true] at hro
          simp [process_submission_statuses, priorOtsKept, ho, hro]
      · simp [process_submission_statuses, priorOtsKept, ho]

theorem pss_snd (save : Bool) (existing : Option EvidenceRecord)
    (readFile : Option String → Bool) (eo et so st : Bool) :
    (process_submission_statuses save existing readFile eo et so st).2 =
      if priorTsaKept save existing readFile then "success"
      else if et then status_from_result st else "disabled" := by
  cases existing with
  | none =>
    cases save <;> simp [process_submission_statuses, priorTsaKept, status_from_result]
  | some r =>
    cases save with
    | false => simp [process_submission_statuses, priorTsaKept]
    | true =>
      by_cases ht : r.tsa_status = "success"
      · by_cases hrt : readFile r.tsa_path = true
        · simp [process_submission_statuses, priorTsaKept, ht, hrt]
        · simp only [Bool.not_eq_true] at hrt
          simp [process_submission_statuses, priorTsaKept, ht, hrt]
      · simp [process_submission_statuses, priorTsaKept, ht]

/-- C9: each protocol's status follows the state machine
`pending → success | failed | disabled`: a fresh (pending) record
transitions exactly by the enabled flag and the operation's outcome;
in general the computed status always lands in
{success, failed, disabled}, is `disabled` only when the protocol was
not requested, is `success` only when the operation succeeded (or a
prior success with intact proof file is kept), and any failure of the
protocol operation (decode error, network failure, hash mismatch -
all surfaced as `success = False` of the create call) yields
`failed`. -/
theorem protocol_status_state_machine
    (save : Bool) (existing : Option EvidenceRecord)
    (readFile : Option String → Bool) (eo et so st : Bool) :
    process_submission_statuses save none readFile eo et so st =
      ((if eo then status_from_result so else "disabled"),
       (if et then status_from_result st else "disabled")) ∧
    ((process_submission_statuses save existing readFile eo et so st).1 = "disabled" →
      eo = false) ∧
    ((process_submission_statuses save existing readFile eo et so st).2 = "disabled" →
      et = false) ∧
    ((process_submission_statuses save existing readFile eo et so st).1 = "success" ↔
      ((eo = true ∧ so = true) ∨ priorOtsKept save existing readFile = true)) ∧
    ((process_submission_statuses save existing readFile eo et so st).2 = "success" ↔
      ((et = true ∧ st = true) ∨ priorTsaKept save existing readFile = true)) ∧
    (eo = true → so = false → priorOtsKept save existing readFile = false →
      (process_submission_statuses save existing readFile eo et so st).1 = "failed") ∧
    (et = true → st = false → priorTsaKept save existing readFile = false →
      (process_submission_statuses save existing readFile eo et so st).2 = "failed") ∧
    ((process_submission_statuses save existing readFile eo et so st).1 = "success" ∨
      (process_submission_statuses save existing readFile eo et so st).1 = "failed" ∨
      (process_submission_statuses save existing readFile eo et so st).1 = "disabled") ∧
    ((process_submission_statuses save existing readFile eo et so st).2 = "success" ∨
      (process_submission_statuses save existing readFile eo et so st).2 = "failed" ∨
      (process_submission_statuses save existing readFile eo et so st).2 = "disabled") := by
  have hf := pss_fst save existing readFile eo et so st
  have hs := pss_snd save existing readFile eo et so st
  have hfresh : process_submission_statuses save none readFile eo et so st =
      ((if eo then status_from_result so else "disabled"),
       (if et then status_from_result st else "disabled")) := by
    cases save <;> simp [process_submission_statuses, status_from_result]
  refine ⟨hfresh, ?_, ?_, ?_, ?_, ?_, ?_, ?_, ?_⟩ <;>
    simp only [hf, hs] <;>
    cases hpo : priorOtsKept save existing readFile <;>
    cases hpt : priorTsaKept save existing readFile <;>
    cases eo <;> cases et <;> cases so <;> cases st <;>
    simp [status_from_result]

/-- C9 witness: a fresh record with OTS requested and succeeding and
TSA not requested computes `("success", "disabled")`; with TSA
requested but its create call failing, the TSA status becomes
`"failed"`. -/
theorem protocol_status_state_machine_witness :
    process_submission_statuses true none (fun _ => false) true false true true =
      ("success", "disabled") ∧
    (process_submission_statuses true none (fun _ => false) true true true false).2 =
      "failed" := by
  obtain ⟨h1, _, _, _, _, _, _, _, _⟩ :=
    protocol_status_state_machine true none (fun _ => false) true false true true
  obtain ⟨_, _, _, _, _, _, h7, _, _⟩ :=
    protocol_status_state_machine true none (fun _ => false) true true true false
  exact ⟨h1.trans (by decide), h7 rfl rfl (by decide)⟩

/-- C10: deleting a hash with no stored record returns `False` and
leaves both the record store and the proof files untouched, for any
`keep_files` flag. -/
theorem delete_evidence_missing_record_noop (st : EvidenceStore)
    (files_dir h : String) (keep_files : Bool)
    (habsent : fetch_by_hash st.records h = none) :
    delete_evidence st files_dir h keep_files = (false, st) := by
  simp [delete_evidence, habsent]

/-- C10 witness: a store holding a record for `"a"` only; deleting
`"b"` (with `keep_files = false`, the file-deleting mode) returns
`False` and the store unchanged. -/
theorem delete_evidence_missing_record_noop_witness :
    delete_evidence
      ⟨[("a", ⟨"success", "failed", some "d/a/a.ots", none⟩)], [("d/a", ["a.ots"])]⟩
      "d" "b" false =
      (false,
       ⟨[("a", ⟨"success", "failed", some "d/a/a.ots", none⟩)], [("d/a", ["a.ots"])]⟩) :=
  delete_evidence_missing_record_noop _ "d" "b" false (by decide)

end Evidence

namespace OTS

/-- C4: proof creation with an empty calendar-endpoint list (explicitly
empty or absent, with the OTS client unavailable - the situation with
the published library, see `create_ots`) fails immediately with the
`"no calendars configured"` configuration error, and the trace of
calendar submissions is empty: no network access happens. -/
theorem empty_calendar_list_config_error
    (submit : String → Except String Timestamp) (digest : List Nat) :
    create_ots none submit digest (some []) =
      ({ success := false, error := some "no calendars configured",
         info := { calendar_success := none, calendar_errors := none, errors := none },
         tree := none }, ([] : List String)) ∧
    create_ots none submit digest none =
      ({ success := false, error := some "no calendars configured",
         info := { calendar_success := none, calendar_errors := none, errors := none },
         tree := none }, ([] : List String)) ∧
    create_ots_with_calendar submit digest [] =
      ({ success := false, error := some "no calendars configured",
         info := { calendar_success := none, calendar_errors := none, errors := none },
         tree := none }, ([] : List String)) := by
  refine ⟨rfl, rfl, rfl⟩

theorem length_filter_not_submitOk (submit : String → Except String Timestamp)
    (l : List String) :
    (l.filter (fun u => ! submitOk submit u)).length =
      l.length - (l.filter (fun u => submitOk submit u)).length := by
  induction l with
  | nil => simp
  | cons a l ih =>
    have hle := List.length_filter_le (fun u => submitOk submit u) l
    cases hpa : submitOk submit a <;> simp [List.filter_cons, hpa, ih] <;> omega

theorem calendarLoop_spec (submit : String → Except String Timestamp) :
    ∀ (urls : List String) (st : CalendarLoopState),
      (calendarLoop submit st urls).attempted = st.attempted ++ urls ∧
      (calendarLoop submit st urls).successCount =
        st.successCount + (urls.filter (fun u => submitOk submit u)).length ∧
      (calendarLoop submit st urls).errors =
        st.errors ++ (urls.filter (fun u => ! submitOk submit u)).map
          (fun u => u ++ ": " ++ submitErrMsg submit u)
  | [], st => by simp [calendarLoop]
  | url :: rest, st => by
    cases hsub : submit url with
    | ok ts =>
      have hok : submitOk submit url = true := by simp [submitOk, hsub]
      obtain ⟨h1, h2, h3⟩ := calendarLoop_spec submit rest
        { tree := st.tree.merge ts, errors := st.errors,
          successCount := st.successCount + 1, attempted := st.attempted ++ [url] }
      simp only [calendarLoop, hsub]
      refine ⟨?_, ?_, ?_⟩
      · rw [h1]; simp
      · rw [h2, List.filter_cons]
        simp [hok]
        omega
      · rw [h3, List.filter_cons]
        simp [hok]
    | error e =>
      have hok : submitOk submit url = false := by simp [submitOk, hsub]
      have hmsg : submitErrMsg submit url = e := by simp [submitErrMsg, hsub]
      obtain ⟨h1, h2, h3⟩ := calendarLoop_spec submit rest
        { tree := st.tree, errors := st.errors ++ [url ++ ": " ++ e],
          successCount := st.successCount, attempted := st.attempted ++ [url] }
      simp only [calendarLoop, hsub]
      refine ⟨?_, ?_, ?_⟩
      · rw [h1]; simp
      · rw [h2, List.filter_cons]
        simp [hok]
      · rw [h3, List.filter_cons]
        simp [hok, hmsg]

/-- C3: for a non-empty ordered endpoint list, aggregation attempts
every endpoint (the submission trace is exactly the endpoint list, so no
failure aborts the rest), succeeds iff at least one endpoint succeeded,
reports with `k ≥ 1` successes an error list of exactly `N - k`
entries `"endpoint: message"` in endpoint order (under
`calendar_errors`), and with zero successes fails with the full ordered
error list (under `errors`). -/
theorem calendar_aggregation_policy (submit : String → Except String Timestamp)
    (digest : List Nat) (calendars : List String) (hne : calendars ≠ []) :
    (create_ots_with_calendar submit digest calendars).2 = calendars ∧
    ((create_ots_with_calendar submit digest calendars).1.success = true ↔
      1 ≤ (calendars.filter (fun u => submitOk submit u)).length) ∧
    (1 ≤ (calendars.filter (fun u => submitOk submit u)).length →
      (create_ots_with_calendar submit digest calendars).1.info.calendar_errors =
        some ((calendars.filter (fun u => ! submitOk submit u)).map
          (fun u => u ++ ": " ++ submitErrMsg submit u)) ∧
      ((calendars.filter (fun u => ! submitOk submit u)).map
          (fun u => u ++ ": " ++ submitErrMsg submit u)).length =
        calendars.length - (calendars.filter (fun u => submitOk submit u)).length ∧
      (create_ots_with_calendar submit digest calendars).1.error = none ∧
      (create_ots_with_calendar submit digest calendars).1.info.calendar_success =
        some (calendars.filter (fun u => submitOk submit u)).length) ∧
    ((calendars.filter (fun u => submitOk submit u)).length = 0 →
      (create_ots_with_calendar submit digest calendars).1.success = false ∧
      (create_ots_with_calendar submit digest calendars).1.error =
        some "all calendars failed" ∧
      (create_ots_with_calendar submit digest calendars).1.info.errors =
        some ((calendars.filter (fun u => ! submitOk submit u)).map
          (fun u => u ++ ": " ++ submitErrMsg submit u))) := by
  obtain ⟨h1, h2, h3⟩ := calendarLoop_spec submit calendars
    { tree := .node digest [] [], errors := [], successCount := 0, attempted := [] }
  simp only [List.nil_append, Nat.zero_add] at h1 h2 h3
  by_cases hzero : (calendars.filter (fun u => submitOk submit u)).length = 0
  · have hsc := h2.trans hzero
    refine ⟨?_, ?_, ?_, ?_⟩
    · simp [create_ots_with_calendar, if_neg hne, hsc, h1]
    · simp [create_ots_with_calendar, if_neg hne, hsc, hzero]
    · intro hge
      omega
    · intro _
      simp [create_ots_with_calendar, if_neg hne, hsc, h3]
  · have hsc := mt (fun h => h2.symm.trans h) hzero
    refine ⟨?_, ?_, ?_, ?_⟩
    · simp [create_ots_with_calendar, if_neg hne, hsc, h1]
    · simp only [create_ots_with_calendar, if_neg hne, if_neg hsc]
      simp
      omega
    · intro _
      refine ⟨?_, ?_, ?_, ?_⟩
      · simp [create_ots_with_calendar, if_neg hne, hsc, h3]
      · rw [List.length_map, length_filter_not_submitOk]
      · simp [create_ots_with_calendar, if_neg hne, hsc]
      · simp only [create_ots_with_calendar, if_neg hne]
        rw [if_neg hsc]
        simp [h2]
    · intro h0
      exact absurd h0 hzero

/-- C3 witness: three endpoints where only `c1` succeeds - all three
are attempted, the outcome is success, and the error list has the two
entries for `c2` and `c3` in endpoint order. -/
theorem calendar_aggregation_policy_witness :
    (create_ots_with_calendar
      (fun u => if u = "c1" then Except.ok (Timestamp.node [1] [] []) else Except.error "down")
      [1] ["c1", "c2", "c3"]).2 = ["c1", "c2", "c3"] ∧
    (create_ots_with_calendar
      (fun u => if u = "c1" then Except.ok (Timestamp.node [1] [] []) else Except.error "down")
      [1] ["c1", "c2", "c3"]).1.success = true ∧
    (create_ots_with_calendar
      (fun u => if u = "c1" then Except.ok (Timestamp.node [1] [] []) else Except.error "down")
      [1] ["c1", "c2", "c3"]).1.info.calendar_errors =
      some ["c2: down", "c3: down"] := by
  have h := calendar_aggregation_policy
    (fun u => if u = "c1" then Except.ok (Timestamp.node [1] [] []) else Except.error "down")
    [1] ["c1", "c2", "c3"] (by decide)
  refine ⟨h.1, h.2.1.mpr (by decide), ?_⟩
  rw [(h.2.2.1 (by decide)).1]
  decide

theorem countNew_toFinset :
    ∀ (keys seen : List (String × Nat)),
      countNew seen keys = (keys.toFinset \ seen.toFinset).card
  | [], seen => by simp [countNew]
  | k :: rest, seen => by
    by_cases h : k ∈ seen
    · have hk : k ∈ seen.toFinset := List.mem_toFinset.mpr h
      simp only [countNew, if_pos h, countNew_toFinset rest seen, List.toFinset_cons,
        Finset.insert_sdiff_of_mem _ hk]
    · have hk : k ∉ seen.toFinset := fun hc => h (List.mem_toFinset.mp hc)
      have hseen : (seen ++ [k]).toFinset = insert k seen.toFinset := by
        rw [List.toFinset_append]
        simp [Finset.union_comm, Finset.insert_eq]
      simp only [countNew, if_neg h, countNew_toFinset rest (seen ++ [k]),
        List.toFinset_cons, hseen, Finset.sdiff_insert,
        Finset.insert_sdiff_of_not_mem _ hk]
      by_cases hkX : k ∈ rest.toFinset \ seen.toFinset
      · rw [Finset.insert_eq_self.mpr hkX, Finset.card_erase_of_mem hkX]
        have : 0 < (rest.toFinset \ seen.toFinset).card := Finset.card_pos.mpr ⟨k, hkX⟩
        omega
      · rw [Finset.card_insert_of_not_mem hkX, Finset.erase_eq_of_not_mem hkX]

theorem collectLoop_calls (lookup : String → Nat → Option String × Option String)
    (buildUrl : String → Nat → Option String → Option String) :
    ∀ (atts : List (List Nat × Att)) (st : CollectState),
      (∀ k, (lookupCache st.cache k).isSome = true → k ∈ st.seen) →
      (collectLoop lookup buildUrl st atts).calls.length =
        st.calls.length + countNew st.seen (anchorKeys atts)
  | [], st, _ => by simp [collectLoop, anchorKeys, countNew]
  | (m, att) :: rest, st, hinv => by
    cases hch : attChainHeight att with
    | none =>
      have ih := collectLoop_calls lookup buildUrl rest st hinv
      simp only [anchorKeys] at ih
      simp only [collectLoop, hch, anchorKeys, List.filterMap_cons]
      exact ih
    | some key =>
      by_cases hseen : key ∈ st.seen
      · have ih := collectLoop_calls lookup buildUrl rest st hinv
        simp only [anchorKeys] at ih
        simp only [collectLoop, hch, if_pos hseen, anchorKeys,
          List.filterMap_cons, countNew]
        exact ih
      · have hmiss : lookupCache st.cache key = none := by
          cases hlc : lookupCache st.cache key with
          | none => rfl
          | some v => exact absurd (hinv key (by simp [hlc])) hseen
        have hinv' : ∀ k,
            (lookupCache (st.cache ++ [(key, lookup key.1 key.2)]) k).isSome = true →
            k ∈ st.seen ++ [key] := by
          intro k hk
          simp only [lookupCache, List.find?_append, Option.isSome_map] at hk
          cases hfind : st.cache.find? (fun p => p.1 = k) with
          | some v =>
            have : (lookupCache st.cache k).isSome = true := by
              simp [lookupCache, hfind]
            simp [hinv k this]
          | none =>
            rw [hfind] at hk
            simp only [Option.none_or] at hk
            cases hfind2 : List.find? (fun p => p.1 = k) [(key, lookup key.1 key.2)] with
            | none => simp [hfind2] at hk
            | some v =>
              have hvp := List.find?_some hfind2
              have hvmem := List.mem_of_find?_eq_some hfind2
              simp only [List.mem_singleton] at hvmem
              rw [hvmem] at hvp
              simp only [decide_eq_true_eq] at hvp
              simp [hvp]
        have ih := collectLoop_calls lookup buildUrl rest
          { seen := st.seen ++ [key], cache := st.cache ++ [(key, lookup key.1 key.2)],
            proofs := st.proofs ++
              [{ chain := key.1, height := key.2, block_hash := (lookup key.1 key.2).1,
                 explorer_url := buildUrl key.1 key.2 (lookup key.1 key.2).1,
                 block_hash_error := (lookup key.1 key.2).2 }],
            calls := st.calls ++ [key] } hinv'
        simp only [collectLoop, hch, if_neg hseen, hmiss] at ih ⊢
        rw [ih]
        simp only [anchorKeys, List.filterMap_cons, hch, countNew, if_neg hseen,
          List.length_append, List.length_cons, List.length_nil]
        omega

/-- C7: one resolution pass performs exactly one external block-hash
lookup per distinct `(chain, height)` pair among the tree's blockchain
anchors; in particular a tree with two anchors at `(bitcoin, 800000)`
triggers exactly one lookup. -/
theorem blockchain_lookups_deduplicated
    (lookup : String → Nat → Option String × Option String)
    (buildUrl : String → Nat → Option String → Option String) (t : Timestamp) :
    (collect_blockchain_proofs lookup buildUrl t).2.length =
      (anchorKeys (Timestamp.allAttestations t)).toFinset.card ∧
    ∀ (lookup2 : String → Nat → Option String × Option String)
      (buildUrl2 : String → Nat → Option String → Option String),
      (collect_blockchain_proofs lookup2 buildUrl2
        (.node [1] [.bitcoin 800000] [(0, .node [2] [.bitcoin 800000] [])])).2.length = 1 := by
  have hgen : ∀ (lk : String → Nat → Option String × Option String)
      (bu : String → Nat → Option String → Option String) (u : Timestamp),
      (collect_blockchain_proofs lk bu u).2.length =
        (anchorKeys (Timestamp.allAttestations u)).toFinset.card := by
    intro lk bu u
    have h := collectLoop_calls lk bu (Timestamp.allAttestations u)
      { seen := [], cache := [], proofs := [], calls := [] }
      (by intro k hk; simp [lookupCache] at hk)
    simp only [collect_blockchain_proofs, h, List.length_nil, Nat.zero_add,
      countNew_toFinset]
    simp
  refine ⟨hgen lookup buildUrl t, ?_⟩
  intro lookup2 buildUrl2
  rw [hgen lookup2 buildUrl2]
  have hatts : Timestamp.allAttestations
      (.node [1] [.bitcoin 800000] [(0, .node [2] [.bitcoin 800000] [])]) =
      [([1], Att.bitcoin 800000), ([2], Att.bitcoin 800000)] := by
    simp [Timestamp.allAttestations, Timestamp.allAttestationsList]
  rw [hatts]
  decide

/-- C1: a decoded proof whose embedded digest differs from the supplied
expected digest verifies to `success = false`, `error = "hash mismatch"`
and `hash_match = false` in the info, in both branches of `verify_ots`;
the comparison `timestamp.msg ≠ expected` is full byte (list) equality,
the result holds regardless of the proof's attestations and of anything
the upgrade phase would do, and it is distinguishable from a decode
failure, which carries an empty info dictionary (no `hash_match`
key). -/
theorem verify_hash_mismatch_result
    (deser : List Nat → Except String DetachedFile)
    (upgradePhase : Timestamp → Timestamp × Bool × List String)
    (lookup : String → Nat → Option String × Option String)
    (buildUrl : String → Nat → Option String → Option String)
    (deserTs : List Nat → Except String Timestamp)
    (verifyFn : Timestamp → Except String (Option String))
    (ots_bytes expected : List Nat) :
    (∀ detached, deser ots_bytes = .ok detached →
      detached.timestamp.msg ≠ expected →
      verify_ots none deser upgradePhase lookup buildUrl ots_bytes (some expected) =
        { success := false, error := some "hash mismatch",
          info := { collect_attestation_info detached.timestamp with
            hash_match := some false },
          updated := none }) ∧
    (∀ ts res, deserTs ots_bytes = .ok ts → verifyFn ts = .ok res →
      ts.msg ≠ expected →
      (verify_ots (some (deserTs, verifyFn)) deser upgradePhase lookup buildUrl
          ots_bytes (some expected)).success = false ∧
      (verify_ots (some (deserTs, verifyFn)) deser upgradePhase lookup buildUrl
          ots_bytes (some expected)).error = some "hash mismatch" ∧
      (verify_ots (some (deserTs, verifyFn)) deser upgradePhase lookup buildUrl
          ots_bytes (some expected)).info.hash_match = some false) ∧
    (∀ e, deser ots_bytes = .error e →
      verify_ots none deser upgradePhase lookup buildUrl ots_bytes (some expected) =
        { success := false, error := some e, info := emptyVerifyInfo,
          updated := none }) ∧
    (∀ e, deserTs ots_bytes = .error e →
      verify_ots (some (deserTs, verifyFn)) deser upgradePhase lookup buildUrl
          ots_bytes (some expected) =
        { success := false, error := some e, info := emptyVerifyInfo,
          updated := none }) := by
  refine ⟨?_, ?_, ?_, ?_⟩
  · intro detached hdeser hne
    simp [verify_ots, hdeser, hne]
  · intro ts res hdeser hverify hne
    refine ⟨?_, ?_, ?_⟩ <;> simp [verify_ots, hdeser, hverify, hne]
  · intro e hdeser
    simp [verify_ots, hdeser]
  · intro e hdeser
    simp [verify_ots, hdeser]

/-- C1 witness: a decoded proof carrying a confirmed bitcoin anchor but
embedded digest `[170]`, verified against expected digest `[187]`; and a
failing deserializer, whose result has no `hash_match` key. -/
theorem verify_hash_mismatch_result_witness :
    verify_ots none (fun _ => .ok ⟨0, .node [170] [.bitcoin 800000] []⟩)
        (fun t => (t, false, [])) (fun _ _ => (none, none)) (fun _ _ _ => none)
        [1] (some [187]) =
      { success := false, error := some "hash mismatch",
        info := { collect_attestation_info (.node [170] [.bitcoin 800000] []) with
          hash_match := some false },
        updated := none } ∧
    verify_ots none (fun _ => .error "truncated")
        (fun t => (t, false, [])) (fun _ _ => (none, none)) (fun _ _ _ => none)
        [1] (some [187]) =
      { success := false, error := some "truncated", info := emptyVerifyInfo,
        updated := none } := by
  constructor
  · exact (verify_hash_mismatch_result
      (fun _ => .ok ⟨0, .node [170] [.bitcoin 800000] []⟩)
      (fun t => (t, false, [])) (fun _ _ => (none, none)) (fun _ _ _ => none)
      (fun _ => .error "x") (fun _ => .ok none) [1] [187]).1
      ⟨0, .node [170] [.bitcoin 800000] []⟩ rfl (by decide)
  · exact (verify_hash_mismatch_result
      (fun _ => .error "truncated")
      (fun t => (t, false, [])) (fun _ _ => (none, none)) (fun _ _ _ => none)
      (fun _ => .error "x") (fun _ => .ok none) [1] [187]).2.2.1 "truncated" rfl

end OTS

namespace OTS.Timestamp

theorem mem_mergeAtts_step (a : List Att) (x e : Att) (h : e ∈ a ∨ e = x) :
    e ∈ (if x ∈ a then a else a ++ [x]) := by
  rcases h with h | rfl
  · split <;> simp [h]
  · split <;> simp_all

theorem mem_mergeAtts_left : ∀ (b a : List Att) (e : Att), e ∈ a → e ∈ mergeAtts a b
  | [], _, _, h => h
  | x :: b, a, e, h => by
    have := mem_mergeAtts_left b (if x ∈ a then a else a ++ [x]) e (mem_mergeAtts_step a x e (.inl h))
    simpa [mergeAtts] using this

theorem mem_mergeAtts_right : ∀ (b a : List Att) (e : Att), e ∈ b → e ∈ mergeAtts a b
  | [], _, _, h => by cases h
  | x :: b, a, e, h => by
    rcases List.mem_cons.mp h with rfl | h
    · have := mem_mergeAtts_left b (if e ∈ a then a else a ++ [e]) e
        (mem_mergeAtts_step a e e (.inr rfl))
      simpa [mergeAtts] using this
    · have := mem_mergeAtts_right b (if x ∈ a then a else a ++ [x]) e h
      simpa [mergeAtts] using this

theorem mergeAtts_eq_of_subset : ∀ (b a : List Att), (∀ e ∈ b, e ∈ a) → mergeAtts a b = a
  | [], _, _ => rfl
  | x :: b, a, h => by
    have hx : x ∈ a := h x (by simp)
    have := mergeAtts_eq_of_subset b a (fun e he => h e (by simp [he]))
    simpa [mergeAtts, hx] using this

theorem insertOp_absorb_other :
    ∀ (l : List (Nat × Timestamp)) (op : Nat) (c : Timestamp) (op2 : Nat) (c2 : Timestamp),
      op ≠ op2 → insertOp l op c = l →
      insertOp (insertOp l op2 c2) op c = insertOp l op2 c2
  | [], op, c, op2, c2, _, habs => by simp [insertOp] at habs
  | (k, t) :: rest, op, c, op2, c2, hne, habs => by
    by_cases hk2 : k = op2
    · have hko : ¬ k = op := by rw [hk2]; exact fun h => hne h.symm
      rw [insertOp, if_neg hko] at habs
      injection habs with _ hr
      have e1 : insertOp ((k, t) :: rest) op2 c2 = (k, merge t c2) :: rest := by
        rw [insertOp, if_pos hk2]
      have e2 : insertOp ((k, merge t c2) :: rest) op c =
          (k, merge t c2) :: insertOp rest op c := by
        rw [insertOp, if_neg hko]
      rw [e1, e2, hr]
    · by_cases hko : k = op
      · rw [insertOp, if_pos hko] at habs
        injection habs with hhead _
        injection hhead with _ hmt
        have e1 : insertOp ((k, t) :: rest) op2 c2 =
            (k, t) :: insertOp rest op2 c2 := by
          rw [insertOp, if_neg hk2]
        have e2 : insertOp ((k, t) :: insertOp rest op2 c2) op c =
            (k, merge t c) :: insertOp rest op2 c2 := by
          rw [insertOp, if_pos hko]
        rw [e1, e2, hmt]
      · rw [insertOp, if_neg hko] at habs
        injection habs with _ hr
        have e1 : insertOp ((k, t) :: rest) op2 c2 =
            (k, t) :: insertOp rest op2 c2 := by
          rw [insertOp, if_neg hk2]
        have e2 : insertOp ((k, t) :: insertOp rest op2 c2) op c =
            (k, t) :: insertOp (insertOp rest op2 c2) op c := by
          rw [insertOp, if_neg hko]
        rw [e1, e2, insertOp_absorb_other rest op c op2 c2 hne hr]

theorem insertOp_insertOp_self :
    ∀ (l : List (Nat × Timestamp)) (op : Nat) (c : Timestamp),
      merge c c = c → (∀ t, merge (merge t c) c = merge t c) →
      insertOp (insertOp l op c) op c = insertOp l op c
  | [], op, c, hcc, _ => by
    simp [insertOp, hcc]
  | (k, t) :: rest, op, c, hcc, htc => by
    by_cases hko : k = op
    · have e1 : insertOp ((k, t) :: rest) op c = (k, merge t c) :: rest := by
        rw [insertOp, if_pos hko]
      have e2 : insertOp ((k, merge t c) :: rest) op c =
          (k, merge (merge t c) c) :: rest := by
        rw [insertOp, if_pos hko]
      rw [e1, e2, htc t]
    · have e1 : insertOp ((k, t) :: rest) op c = (k, t) :: insertOp rest op c := by
        rw [insertOp, if_neg hko]
      have e2 : insertOp ((k, t) :: insertOp rest op c) op c =
          (k, t) :: insertOp (insertOp rest op c) op c := by
        rw [insertOp, if_neg hko]
      rw [e1, e2, insertOp_insertOp_self rest op c hcc htc]

theorem insertOp_mergeInto_absorb :
    ∀ (l2 l : List (Nat × Timestamp)) (op : Nat) (c : Timestamp),
      op ∉ l2.map Prod.fst → insertOp l op c = l →
      insertOp (mergeInto l l2) op c = mergeInto l l2
  | [], l, op, c, _, habs => by simpa [mergeInto] using habs
  | (op2, c2) :: rest, l, op, c, hnotin, habs => by
    have hne : op ≠ op2 := by
      intro h
      exact hnotin (by simp [h])
    have hrest : op ∉ rest.map Prod.fst := fun h => hnotin (by simp [h])
    rw [mergeInto]
    exact insertOp_mergeInto_absorb rest (insertOp l op2 c2) op c hrest
      (insertOp_absorb_other l op c op2 c2 hne habs)

theorem mergeInto_mergeInto_self :
    ∀ (o2 : List (Nat × Timestamp)),
      (o2.map Prod.fst).Nodup →
      (∀ op c, (op, c) ∈ o2 →
        merge c c = c ∧ ∀ t, merge (merge t c) c = merge t c) →
      ∀ o, mergeInto (mergeInto o o2) o2 = mergeInto o o2
  | [], _, _, o => by simp [mergeInto]
  | (op, c) :: rest, hnodup, hfacts, o => by
    have hc := hfacts op c (by simp)
    have hkeys : op ∉ rest.map Prod.fst := by
      have := hnodup
      simp only [List.map_cons, List.nodup_cons] at this
      exact this.1
    have hnd : (rest.map Prod.fst).Nodup := by
      have := hnodup
      simp only [List.map_cons, List.nodup_cons] at this
      exact this.2
    have habs1 : insertOp (insertOp o op c) op c = insertOp o op c :=
      insertOp_insertOp_self o op c hc.1 hc.2
    have habs2 : insertOp (mergeInto (insertOp o op c) rest) op c =
        mergeInto (insertOp o op c) rest :=
      insertOp_mergeInto_absorb rest (insertOp o op c) op c hkeys habs1
    rw [mergeInto, mergeInto, habs2]
    exact mergeInto_mergeInto_self rest hnd
      (fun op' c' h => hfacts op' c' (by simp [h])) (insertOp o op c)

theorem insertOp_mem_self :
    ∀ (l : List (Nat × Timestamp)) (op : Nat) (c : Timestamp),
      (l.map Prod.fst).Nodup → (op, c) ∈ l → merge c c = c → insertOp l op c = l
  | [], _, _, _, hmem, _ => by cases hmem
  | (k, t) :: rest, op, c, hnodup, hmem, hcc => by
    by_cases hko : k = op
    · have hct : t = c := by
        rcases List.mem_cons.mp hmem with h | h
        · exact (((Prod.mk.injEq _ _ _ _).mp h).2).symm
        · exfalso
          have hop : op ∈ rest.map Prod.fst := List.mem_map.mpr ⟨(op, c), h, rfl⟩
          simp only [List.map_cons, List.nodup_cons] at hnodup
          rw [hko] at hnodup
          exact hnodup.1 hop
      have e1 : insertOp ((k, t) :: rest) op c = (k, merge t c) :: rest := by
        rw [insertOp, if_pos hko]
      rw [e1, hct, hcc]
    · have hmem' : (op, c) ∈ rest := by
        rcases List.mem_cons.mp hmem with h | h
        · exact absurd ((Prod.mk.injEq _ _ _ _).mp h).1.symm hko
        · exact h
      simp only [List.map_cons, List.nodup_cons] at hnodup
      have e1 : insertOp ((k, t) :: rest) op c = (k, t) :: insertOp rest op c := by
        rw [insertOp, if_neg hko]
      rw [e1, insertOp_mem_self rest op c hnodup.2 hmem' hcc]

theorem mergeInto_self_sub :
    ∀ (m l : List (Nat × Timestamp)),
      (l.map Prod.fst).Nodup →
      (∀ op c, (op, c) ∈ m → (op, c) ∈ l ∧ merge c c = c) →
      mergeInto l m = l
  | [], l, _, _ => by simp [mergeInto]
  | (op, c) :: rest, l, hnodup, h => by
    have hc := h op c (by simp)
    rw [mergeInto, insertOp_mem_self l op c hnodup hc.1 hc.2]
    exact mergeInto_self_sub rest l hnodup (fun op' c' h' => h op' c' (by simp [h']))

theorem sizeOf_child_lt {op : Nat} {c : Timestamp} {o : List (Nat × Timestamp)}
    (h : (op, c) ∈ o) (m : List Nat) (a : List Att) :
    sizeOf c < sizeOf (Timestamp.node m a o) := by
  have h1 : sizeOf (op, c) < sizeOf o := List.sizeOf_lt_of_mem h
  simp only [Prod.mk.sizeOf_spec] at h1
  simp only [Timestamp.node.sizeOf_spec]
  omega

theorem merge_twice_and_self :
    ∀ (n : Nat) (u : Timestamp), sizeOf u ≤ n → WF u →
      (∀ t, merge (merge t u) u = merge t u) ∧ merge u u = u := by
  intro n
  induction n with
  | zero =>
    intro u hle _
    cases u with
    | node m a o => simp [Timestamp.node.sizeOf_spec] at hle
  | succ n ih =>
    intro u hle hwf
    cases u with
    | node m2 a2 o2 =>
      cases hwf with
      | node _ _ _ hkeys hch =>
        have hchfacts : ∀ op c, (op, c) ∈ o2 →
            merge c c = c ∧ ∀ t, merge (merge t c) c = merge t c := by
          intro op c hmem
          have hsz : sizeOf c ≤ n := by
            have := sizeOf_child_lt hmem m2 a2
            omega
          have := ih c hsz (hch op c hmem)
          exact ⟨this.2, this.1⟩
        constructor
        · intro t
          cases t with
          | node m a o =>
            have e1 : merge (.node m a o) (.node m2 a2 o2) =
                .node m (mergeAtts a a2) (mergeInto o o2) := by
              rw [merge]
            have e2 : merge (.node m (mergeAtts a a2) (mergeInto o o2)) (.node m2 a2 o2) =
                .node m (mergeAtts (mergeAtts a a2) a2)
                  (mergeInto (mergeInto o o2) o2) := by
              rw [merge]
            have hatts : mergeAtts (mergeAtts a a2) a2 = mergeAtts a a2 :=
              mergeAtts_eq_of_subset a2 (mergeAtts a a2)
                (fun e he => mem_mergeAtts_right a2 a e he)
            rw [e1, e2, hatts, mergeInto_mergeInto_self o2 hkeys hchfacts o]
        · have e1 : merge (.node m2 a2 o2) (.node m2 a2 o2) =
              .node m2 (mergeAtts a2 a2) (mergeInto o2 o2) := by
            rw [merge]
          have hatts : mergeAtts a2 a2 = a2 :=
            mergeAtts_eq_of_subset a2 a2 (fun e he => he)
          have hops : mergeInto o2 o2 = o2 :=
            mergeInto_self_sub o2 o2 hkeys
              (fun op c h => ⟨h, (hchfacts op c h).1⟩)
          rw [e1, hatts, hops]

/-- C6: merge is idempotent for well-formed proofs: merging the same
successful calendar proof into the base tree twice yields exactly the
tree of merging it once, in particular the same attestation count - so
re-submitting the same digest to the same calendar and merging both
results does not grow the tree.  (Well-formedness - distinct operation
keys at every node - holds for every tree the library builds, children
being stored in a per-node dict.) -/
theorem merge_idempotent_resubmission (base p : Timestamp) (hp : WF p) :
    merge (merge base p) p = merge base p ∧
    attCount (merge (merge base p) p) = attCount (merge base p) := by
  have h := merge_twice_and_self (sizeOf p) p le_rfl hp
  exact ⟨h.1 base, by rw [h.1 base]⟩

/-- C6 witness: a calendar proof for digest `[9]` with a pending
attestation and a bitcoin-anchored child operation, merged twice into
the fresh base tree for `[9]`. -/
theorem merge_idempotent_resubmission_witness :
    merge (merge (Timestamp.node [9] [] [])
        (Timestamp.node [9] [Att.pending "cal"]
          [(7, Timestamp.node [2] [Att.bitcoin 800000] [])]))
      (Timestamp.node [9] [Att.pending "cal"]
        [(7, Timestamp.node [2] [Att.bitcoin 800000] [])]) =
      merge (Timestamp.node [9] [] [])
        (Timestamp.node [9] [Att.pending "cal"]
          [(7, Timestamp.node [2] [Att.bitcoin 800000] [])]) ∧
    attCount (merge (merge (Timestamp.node [9] [] [])
        (Timestamp.node [9] [Att.pending "cal"]
          [(7, Timestamp.node [2] [Att.bitcoin 800000] [])]))
      (Timestamp.node [9] [Att.pending "cal"]
        [(7, Timestamp.node [2] [Att.bitcoin 800000] [])])) =
      attCount (merge (Timestamp.node [9] [] [])
        (Timestamp.node [9] [Att.pending "cal"]
          [(7, Timestamp.node [2] [Att.bitcoin 800000] [])])) := by
  refine merge_idempotent_resubmission _ _ ?_
  constructor
  · simp
  · intro op c h
    simp only [List.mem_singleton] at h
    injection h with _ hc
    rw [hc]
    constructor
    · simp
    · intro op2 c2 h2
      simp at h2

end OTS.Timestamp
